import Mathlib

/-!
Shallow embedding of `mobb_fp_extractor.py` (Mobb FP Auto Extraction Tool)
and proofs about its extraction pipeline.

Python dictionaries are modelled by structures whose optional fields are
`Option`-valued; a Python value that is absent or `None` is `none`.  Python
truthiness on strings (`if s:`) is `s` being a non-empty string.  HTTP
responses are modelled as `Option` of the already-decoded payload: `none` is
a request failure (timeout, HTTP error, undecodable body), in which case
`_make_request` returns `None`.
-/

namespace MobbFP

/-- One entry of an issue's `vulnerabilityReportIssueTags` list.
`value` models `tag.get("vulnerability_report_issue_tag_value")`:
`none` when the key is absent or explicitly `null`. -/
structure Tag where
  value : Option String
deriving Repr, DecidableEq

/-- An issue as returned by the v5 issues endpoint.  `concatenated_tags`
models the key of the same name that `filter_irrelevant_issues` writes into
the issue dict (absent, i.e. `none`, on issues fresh from the API).
`extra` models any further keys of the Python dict that the extractor never
touches, so that frame conditions are expressible. -/
structure Issue where
  vendorInstanceId : Option String
  fpDescription : Option String
  vulnerabilityReportIssueTags : List Tag
  concatenated_tags : Option String
  extra : List (String × String)
deriving Repr, DecidableEq

/-- The inner loop of `filter_irrelevant_issues` that collects the truthy
tag values: `for tag in tags: tag_value = tag.get(...); if tag_value:
tag_values.append(tag_value)`. -/
def collectTagValues : List Tag → List String
  | [] => []
  | tag :: rest =>
    match tag.value with
    | some s => if s = "" then collectTagValues rest else s :: collectTagValues rest
    | none => collectTagValues rest

/-- `MobbFPExtractor.filter_irrelevant_issues` (lines 202-223): keep the
issues whose tag list is non-empty and yields at least one truthy tag value,
setting `issue["concatenated_tags"] = " | ".join(tag_values)` on each kept
issue. -/
def filter_irrelevant_issues : List Issue → List Issue
  | [] => []
  | issue :: rest =>
    let tags := issue.vulnerabilityReportIssueTags
    if tags.isEmpty then
      filter_irrelevant_issues rest
    else
      let tag_values := collectTagValues tags
      if tag_values.isEmpty then
        filter_irrelevant_issues rest
      else
        { issue with concatenated_tags := some (String.intercalate " | " tag_values) }
          :: filter_irrelevant_issues rest

/-- Python truthiness of an optional tag value: present and non-empty. -/
def truthy : Option String → Bool
  | some s => !(s == "")
  | none => false

/-- The update `filter_irrelevant_issues` performs on a kept issue. -/
def setConcatenatedTags (issue : Issue) : Issue :=
  { issue with
      concatenated_tags :=
        some (String.intercalate " | " (collectTagValues issue.vulnerabilityReportIssueTags)) }

/-- An issue is kept ("irrelevant" in the tool's vocabulary) iff some tag
carries a truthy value. -/
def relevantIssue (issue : Issue) : Bool :=
  issue.vulnerabilityReportIssueTags.any fun t => truthy t.value

/-! ### Report lister (`get_active_reports`, lines 105-145) -/

/-- One entry of the `fixReport` array of the active-reports listing.
`id` and `createdOn` model `report.get("id")` / `report.get("createdOn")`:
`none` when absent or `null`. -/
structure ReportEntry where
  id : Option String
  createdOn : Option String
deriving Repr, DecidableEq

/-- `created_on_str.replace('Z', '+00:00')`: the pattern is the single
character `Z`, so the replacement is exactly a character-level expansion. -/
def replaceZ (s : String) : String :=
  String.mk (List.flatten (s.data.map fun ch =>
    if ch = 'Z' then String.data "+00:00" else [ch]))

/-- A point in time, in seconds (the granularity `timedelta(days=...)`
arithmetic needs here).  `datetime.fromisoformat` — library code, not part of
this repository — is modelled by an explicit parse function
`String → Option Int`: `none` when the library raises (unparseable string,
or a naive timestamp that cannot be compared to the aware cutoff). -/
def secondsPerDay : Int := 86400

/-- The `for report in fix_reports` loop of `get_active_reports`: skip
entries with a falsy id or falsy `createdOn`, skip entries whose timestamp
fails to parse (the `except` branch), and keep the ids of the rest whose
timestamp is at or after the cutoff, in response order. -/
def activeReportsLoop (parse : String → Option Int) (cutoff_date : Int) :
    List ReportEntry → List String
  | [] => []
  | report :: rest =>
    match report.id, report.createdOn with
    | some report_id, some created_on_str =>
      if report_id = "" ∨ created_on_str = "" then
        activeReportsLoop parse cutoff_date rest
      else
        match parse (replaceZ created_on_str) with
        | some created_on =>
          if cutoff_date ≤ created_on then
            report_id :: activeReportsLoop parse cutoff_date rest
          else activeReportsLoop parse cutoff_date rest
        | none => activeReportsLoop parse cutoff_date rest
    | _, _ => activeReportsLoop parse cutoff_date rest

/-- `MobbFPExtractor.get_active_reports` (lines 105-145).  `response` is the
decoded listing payload (`none` on request failure or a falsy body); the
`fixReport` key defaulting to `[]` is folded into the payload list.  The
cutoff is computed once, before the loop: `now - timedelta(days=days)`. -/
def get_active_reports (parse : String → Option Int) (now : Int) (days : Int)
    (response : Option (List ReportEntry)) : List String :=
  match response with
  | none => []
  | some fix_reports =>
    activeReportsLoop parse (now - days * secondsPerDay) fix_reports

/-- The per-report predicate `get_active_reports` actually applies: a truthy
id, a truthy `createdOn`, a parseable timestamp, and timestamp ≥ cutoff. -/
def keepReport (parse : String → Option Int) (cutoff : Int) (r : ReportEntry) : Bool :=
  match r.id, r.createdOn with
  | some report_id, some created_on_str =>
    if report_id = "" ∨ created_on_str = "" then false
    else
      match parse (replaceZ created_on_str) with
      | some created_on => decide (cutoff ≤ created_on)
      | none => false
  | _, _ => false

/-- Restatement of the claim's lister predicate, from the spec's words: a
report is included exactly when its `createdOn` timestamp parses and is at
or after the cutoff (no condition on the id). -/
def specListerIds (parse : String → Option Int) (cutoff : Int)
    (response : Option (List ReportEntry)) : List String :=
  ((response.getD []).filter fun r =>
      match r.createdOn with
      | some created_on_str =>
        match parse (replaceZ created_on_str) with
        | some created_on => decide (cutoff ≤ created_on)
        | none => false
      | none => false).filterMap (fun r => r.id)

/-! ### Report detail fetcher (`get_fix_report_details`, lines 147-180) -/

/-- `project` object inside `vulnerabilityReport`; `name` models
`project.get("name")`. -/
structure Project where
  name : Option String
deriving Repr, DecidableEq

/-- `vulnerabilityReport` object of a fix report.  `project` is `none` when
the key is absent, `null`, or the empty (falsy) dict. -/
structure VulnerabilityReport where
  project : Option Project
deriving Repr, DecidableEq

/-- `repo` object of a fix report. -/
structure Repo where
  name : Option String
deriving Repr, DecidableEq

/-- One entry of the `fixReport` array of the detail payload, restricted to
the shapes on which `get_fix_report_details` returns normally.
`vulnerabilityReport` is `none` when the key is absent or holds the empty
(falsy) dict: in both cases the project lookup yields a falsy value and the
`if project:` guard leaves `project_name` as `None`.  An entry whose
`vulnerabilityReport` is present but explicitly `null` is NOT representable
here: on that shape the source raises `AttributeError` at line 168 (there is
no guard on `vulnerability_report` itself) — see `FixReportRaw` and
`get_fix_report_details_raw` below for the model that keeps that error path.
`repo` is `none` when absent, `null`, or the empty (falsy) dict — all three
are covered by the `if repo:` guard and leave `repo_name` as `None`. -/
structure FixReportFull where
  vulnerabilityReport : Option VulnerabilityReport
  repo : Option Repo
deriving Repr, DecidableEq

/-- The dict `get_fix_report_details` returns: both names may be `None`. -/
structure ReportDetails where
  project_name : Option String
  repo_name : Option String
  fix_report_id : String
deriving Repr, DecidableEq

/-- `MobbFPExtractor.get_fix_report_details` (lines 147-180) on payloads in
`FixReportFull` shape, i.e. without an explicitly-null `vulnerabilityReport`
(the shape on which the source returns rather than raising; the raising
shape is modelled by `get_fix_report_details_raw` below and, in the
pipeline, surfaces through the detail step's error channel).  `response` is
the decoded detail payload (`none` on request failure or a falsy body), with
the `fixReport` key defaulting to `[]` folded in.  Returns `none` when the
fetch failed or the `fixReport` list is empty; otherwise extracts both names
from the first entry, tolerating any absent nesting. -/
def get_fix_report_details (fix_report_id : String)
    (response : Option (List FixReportFull)) : Option ReportDetails :=
  match response with
  | none => none
  | some fix_reports =>
    match fix_reports with
    | [] => none
    | fix_report :: _ =>
      let project_name :=
        match fix_report.vulnerabilityReport with
        | some vulnerability_report =>
          match vulnerability_report.project with
          | some project => project.name
          | none => none
        | none => none
      let repo_name :=
        match fix_report.repo with
        | some repo => repo.name
        | none => none
      some { project_name := project_name, repo_name := repo_name,
             fix_report_id := fix_report_id }

/-- A JSON object field as stored in a decoded payload: absent, explicitly
`null`, or a value.  `dict.get(key, {})` yields the `{}` default only in
the `absent` case; in the `null` case it yields `None`. -/
inductive JsonField (α : Type) where
  | absent
  | null
  | val (a : α)
deriving Repr, DecidableEq

/-- The truthy content of a raw field: what survives lookup-plus-guard.
The `null` case reaches this only after the unguarded access has raised,
which `get_fix_report_details_raw` tracks separately. -/
def JsonField.toOption : JsonField α → Option α
  | .absent => none
  | .null => none
  | .val a => some a

/-- One entry of the `fixReport` detail array with the `vulnerabilityReport`
key kept raw, so that a present-but-`null` value is distinguishable from an
absent key.  Only this field needs the three-way split: `project` and `repo`
sit behind `if project:` / `if repo:` guards, which treat `null` and absent
alike, but nothing guards `vulnerability_report` itself. -/
structure FixReportRaw where
  vulnerabilityReport : JsonField VulnerabilityReport
  repo : Option Repo
deriving Repr, DecidableEq

/-- `MobbFPExtractor.get_fix_report_details` (lines 147-180) over the raw
payload shape.  `.error` models the uncaught `AttributeError` at line 168:
`fix_report.get("vulnerabilityReport", {})` returns `None` when the key is
present with value `null`, and the unguarded
`vulnerability_report.get("project", {})` then raises; the exception
propagates out of the function into the caller's per-report `try`. -/
def get_fix_report_details_raw (fix_report_id : String)
    (response : Option (List FixReportRaw)) :
    Except String (Option ReportDetails) :=
  match response with
  | none => .ok none
  | some fix_reports =>
    match fix_reports with
    | [] => .ok none
    | fix_report :: _ =>
      match fix_report.vulnerabilityReport with
      | .null => .error "AttributeError: NoneType has no attribute get"
      | vulnerability_report =>
        let project_name :=
          match vulnerability_report.toOption with
          | some vr =>
            match vr.project with
            | some project => project.name
            | none => none
          | none => none
        let repo_name :=
          match fix_report.repo with
          | some repo => repo.name
          | none => none
        .ok (some { project_name := project_name, repo_name := repo_name,
                    fix_report_id := fix_report_id })

/-- Forget the absent/null distinction: the restriction under which the
pipeline model `get_fix_report_details` operates. -/
def rawToFull (fr : FixReportRaw) : FixReportFull :=
  { vulnerabilityReport := fr.vulnerabilityReport.toOption, repo := fr.repo }

/-- `MobbFPExtractor.get_issues_for_fix_report` (lines 182-200): `none`
(request failure) and missing wrapper keys all produce `[]`. -/
def get_issues_for_fix_report (response : Option (List Issue)) : List Issue :=
  match response with
  | none => []
  | some issues => issues

/-! ### Configuration loading (`_load_config`, lines 55-68, and
`__init__`, lines 25-53) -/

/-- The decoded `config.json` contents; each field is `none` when the key is
absent (or `null` — `dict.get` with a default treats only absence specially,
which this model conflates with `null`; the token check treats both as
falsy anyway). -/
structure Config where
  mobb_api_token : Option String
  tenant : Option String
  daysOfData : Option Int
deriving Repr, DecidableEq

/-- What reading `config.json` produced before validation. -/
inductive ConfigSource where
  | missing
  | invalidJson
  | parsed (c : Config)
deriving Repr, DecidableEq

/-- The exceptions `_load_config` raises. -/
inductive ConfigError where
  | fileNotFound (msg : String)
  | valueError (msg : String)
deriving Repr, DecidableEq

/-- `MobbFPExtractor._load_config` (lines 55-68): re-raises file-not-found,
turns JSON decode errors into `ValueError`, and rejects a falsy or
placeholder `mobb_api_token`. -/
def _load_config (config_path : String) (src : ConfigSource) :
    Except ConfigError Config :=
  match src with
  | .missing =>
    .error (.fileNotFound ("Configuration file " ++ config_path ++ " not found"))
  | .invalidJson =>
    .error (.valueError ("Invalid JSON in configuration file " ++ config_path))
  | .parsed config =>
    let token := config.mobb_api_token
    if token = none ∨ token = some "" ∨ token = some "YOUR_MOBB_API_TOKEN_HERE" then
      .error (.valueError "Please set your Mobb API token in config.json")
    else
      .ok config

/-- The configuration-derived fields `__init__` (lines 25-53) sets before
touching the network.  Logging and CSV file creation are I/O side effects
outside the data model; no HTTP request happens during construction. -/
structure ExtractorState where
  config : Config
  api_token : String
  tenant : String
  days_of_data : Int
  base_url : String
deriving Repr, DecidableEq

/-- The configuration part of `MobbFPExtractor.__init__` (lines 25-53):
load and validate the config, then read `tenant` (default `"api"`) and
`daysOfData` (default `7`) with no further validation. -/
def initExtractor (config_path : String) (src : ConfigSource) :
    Except ConfigError ExtractorState :=
  match _load_config config_path src with
  | .error e => .error e
  | .ok config =>
    let tenant := config.tenant.getD "api"
    .ok { config := config
          api_token := config.mobb_api_token.getD ""
          tenant := tenant
          days_of_data := config.daysOfData.getD 7
          base_url := "https://" ++ tenant ++ ".mobb.ai" }

/-- The `days_of_data` of a successful construction, `none` on rejection. -/
def extractedDays (r : Except ConfigError ExtractorState) : Option Int :=
  match r with
  | .ok st => some st.days_of_data
  | .error _ => none

/-- The token values `_load_config` rejects: absent, empty, or the
placeholder. -/
def tokenBad (c : Config) : Bool :=
  c.mobb_api_token = none ∨ c.mobb_api_token = some "" ∨
    c.mobb_api_token = some "YOUR_MOBB_API_TOKEN_HERE"

/-! ### Pipeline orchestrator (`process_all_reports`, lines 225-273) and
exporter (`_append_to_csv`, lines 312-321) -/

/-- One `issue_data` dict, i.e. one CSV data row (lines 254-260).
`project_name`, `repo_name` and `FPDescription` keep their `Option` type:
`fix_report_details.get("project_name", "")` returns the stored value, which
may be `None` (the `""` default only applies to an absent key, and
`get_fix_report_details` always stores both keys), and the CSV writer
renders `None` as an empty cell.  `vendorInstanceId` and `state` are always
strings. -/
structure RowData where
  project_name : Option String
  repo_name : Option String
  vendorInstanceId : String
  state : String
  FPDescription : Option String
deriving Repr, DecidableEq

/-- Construction of `issue_data` for one irrelevant issue (lines 254-260):
`issue.get("vendorInstanceId") if issue.get("vendorInstanceId") is not None
else "null"`, `issue.get("concatenated_tags", "")`,
`issue.get("fpDescription", "")`. -/
def issueRow (fix_report_details : ReportDetails) (issue : Issue) : RowData :=
  { project_name := fix_report_details.project_name
    repo_name := fix_report_details.repo_name
    vendorInstanceId :=
      match issue.vendorInstanceId with
      | some v => v
      | none => "null"
    state := (issue.concatenated_tags).getD ""
    FPDescription := issue.fpDescription }

/-- `MobbFPExtractor._append_to_csv` (lines 312-321): write one row; any
exception is caught and logged, so a failed write leaves the file unchanged
and never propagates.  `appendOk k` says whether the k-th write attempt of
the run succeeds. -/
def _append_to_csv (appendOk : Nat → Bool) (attempts : Nat)
    (file : List RowData) (issue_data : RowData) : List RowData :=
  if appendOk attempts then file ++ [issue_data] else file

/-- The mutable state the orchestrator threads: the CSV file contents (data
rows after the header), the number of write attempts so far, and the
running `total_irrelevant_issues` counter. -/
structure RunState where
  file : List RowData
  attempts : Nat
  total : Nat
deriving Repr, DecidableEq

/-- The `for issue in irrelevant_issues` loop (lines 253-264): build the
row, append it to the CSV (failures swallowed by `_append_to_csv`), and
increment the counter unconditionally. -/
def exportIssues (appendOk : Nat → Bool) (fix_report_details : ReportDetails) :
    List Issue → RunState → RunState
  | [], st => st
  | issue :: rest, st =>
    let row := issueRow fix_report_details issue
    let file := _append_to_csv appendOk st.attempts st.file row
    exportIssues appendOk fix_report_details rest
      { file := file, attempts := st.attempts + 1, total := st.total + 1 }

/-- The environment one run observes.  The two per-report fetches are
`Except`-valued: `.error` models an exception escaping the fetch into the
per-report `try` — e.g. a detail entry whose `vulnerabilityReport` is
explicitly `null`, on which `get_fix_report_details` raises
`AttributeError` at line 168 (see `get_fix_report_details_raw`), or any
other payload of unexpected shape making attribute access raise.  Network
and JSON-decode errors are already absorbed inside `_make_request` and
surface as `.ok none`. -/
structure RunEnv where
  parse : String → Option Int
  now : Int
  days : Int
  listerResponse : Option (List ReportEntry)
  detailStep : String → Except String (Option (List FixReportFull))
  issuesStep : String → Except String (Option (List Issue))
  appendOk : Nat → Bool

/-- The body of the per-report `try` (lines 238-266) up to the export loop:
fetch details (skip the report when `None`), fetch issues (skip when empty),
and filter.  `.error` propagates an exception to the `except` handler. -/
def processOneReport (env : RunEnv) (report_id : String) :
    Except String (Option (ReportDetails × List Issue)) :=
  match env.detailStep report_id with
  | .error e => .error e
  | .ok detail_response =>
    match get_fix_report_details report_id detail_response with
    | none => .ok none
    | some fix_report_details =>
      match env.issuesStep report_id with
      | .error e => .error e
      | .ok issues_response =>
        let issues := get_issues_for_fix_report issues_response
        if issues.isEmpty then .ok none
        else .ok (some (fix_report_details, filter_irrelevant_issues issues))

/-- The `for report_id in report_ids` loop of `process_all_reports` (lines
237-270): per-report exceptions are caught (`except` at line 268) and the
loop continues; a skipped or failed report leaves the state unchanged. -/
def processReports (env : RunEnv) : List String → RunState → RunState
  | [], st => st
  | report_id :: rest, st =>
    let st' :=
      match processOneReport env report_id with
      | .error _ => st
      | .ok none => st
      | .ok (some (fix_report_details, irrelevant_issues)) =>
        exportIssues env.appendOk fix_report_details irrelevant_issues st
    processReports env rest st'

/-- The empty run state: freshly initialized CSV (header only). -/
def initialRunState : RunState := { file := [], attempts := 0, total := 0 }

/-- `MobbFPExtractor.process_all_reports` (lines 225-273): list the active
reports (early `0` when none), run the loop, and return the final state
together with the returned `total_irrelevant_issues`. -/
def process_all_reports (env : RunEnv) : RunState × Nat :=
  let report_ids :=
    get_active_reports env.parse env.now env.days env.listerResponse
  if report_ids.isEmpty then (initialRunState, 0)
  else
    let st := processReports env report_ids initialRunState
    (st, st.total)

/-- The issue list of one report as the environment would deliver it (what
`get_issues_for_fix_report` yields if its fetch is reached and raises no
exception). -/
def envIssuesOf (env : RunEnv) (report_id : String) : List Issue :=
  match env.issuesStep report_id with
  | .ok issues_response => get_issues_for_fix_report issues_response
  | .error _ => []

/-- Restatement of the claim's row-count, from the spec's words: the number
of issues satisfying the relevance predicate, summed over all report ids
returned by the lister for the run. -/
def specClaimedRowTotal (env : RunEnv) : Nat :=
  List.foldl
    (fun acc report_id =>
      acc + (filter_irrelevant_issues (envIssuesOf env report_id)).length)
    0
    (get_active_reports env.parse env.now env.days env.listerResponse)

/-! ### Concrete inputs used by witnesses and counterexamples -/

/-- A tag carrying a truthy value. -/
def tagFP : Tag := { value := some "fp-confirmed" }

/-- A relevant issue: one truthy tag, no `vendorInstanceId`. -/
def issueRelevant : Issue :=
  { vendorInstanceId := none
    fpDescription := some "reviewed as FP"
    vulnerabilityReportIssueTags := [tagFP]
    concatenated_tags := none
    extra := [("severity", "high")] }

/-- An issue with tags but only falsy tag values: dropped by the filter. -/
def issueNoValue : Issue :=
  { vendorInstanceId := some "vid-1"
    fpDescription := none
    vulnerabilityReportIssueTags := [{ value := some "" }, { value := none }]
    concatenated_tags := none
    extra := [] }

/-- A detail record with both names present. -/
def detailsSample : ReportDetails :=
  { project_name := some "proj-1", repo_name := some "repo-1",
    fix_report_id := "r1" }

/-- A raw detail entry whose `vulnerabilityReport` key is present with the
explicit value `null`: the shape on which the source raises. -/
def rawNullVR : FixReportRaw :=
  { vulnerabilityReport := JsonField.null, repo := some { name := some "repo-1" } }

/-- A raw detail entry with no `vulnerabilityReport` key at all: the `.get`
default `{}` applies and the source returns a record with a null project
name. -/
def rawAbsentVR : FixReportRaw :=
  { vulnerabilityReport := JsonField.absent, repo := some { name := some "repo-1" } }

/-- A fully populated detail-payload entry. -/
def fixReportSample : FixReportFull :=
  { vulnerabilityReport := some { project := some { name := some "proj-1" } }
    repo := some { name := some "repo-1" } }

/-- A listing entry with a truthy id and timestamp. -/
def reportR1 : ReportEntry :=
  { id := some "r1", createdOn := some "2026-02-01T00:00:00Z" }

/-- A listing entry whose id is the empty string — falsy in Python — with a
well-formed timestamp. -/
def reportEmptyId : ReportEntry :=
  { id := some "", createdOn := some "2026-02-01T00:00:00Z" }

/-- A parse function declaring every timestamp valid and equal to instant 1
(enough for concrete runs; the cutoff below is 0). -/
def parseConst : String → Option Int := fun _ => some 1

/-- A config with a valid token and a negative lookback window. -/
def cfgNegDays : Config :=
  { mobb_api_token := some "tok-123", tenant := some "api",
    daysOfData := some (-5) }

/-- A config with a valid token and no lookback window at all. -/
def cfgNoDays : Config :=
  { mobb_api_token := some "tok-123", tenant := none, daysOfData := none }

/-- A config still holding the placeholder token. -/
def cfgPlaceholder : Config :=
  { mobb_api_token := some "YOUR_MOBB_API_TOKEN_HERE", tenant := some "api",
    daysOfData := some 7 }

/-- A run in which every report's detail fetch fails (`None` from
`_make_request`) while its issues would have contained a relevant issue. -/
def envDetailFail : RunEnv :=
  { parse := parseConst
    now := 0
    days := 0
    listerResponse := some [reportR1]
    detailStep := fun _ => .ok none
    issuesStep := fun _ => .ok (some [issueRelevant])
    appendOk := fun _ => true }

/-- A fully healthy run over one report with one relevant and one dropped
issue. -/
def envGood : RunEnv :=
  { parse := parseConst
    now := 0
    days := 0
    listerResponse := some [reportR1]
    detailStep := fun _ => .ok (some [fixReportSample])
    issuesStep := fun _ => .ok (some [issueRelevant, issueNoValue])
    appendOk := fun _ => true }

/-- A run whose every CSV append fails (exception swallowed inside
`_append_to_csv`). -/
def envNoWrites : RunEnv :=
  { parse := parseConst
    now := 0
    days := 0
    listerResponse := some [reportR1]
    detailStep := fun _ => .ok (some [fixReportSample])
    issuesStep := fun _ => .ok (some [issueRelevant])
    appendOk := fun _ => false }

/-- A run in which processing report "rB" raises (its detail payload makes
attribute access throw) while report "rG" processes cleanly. -/
def envErr : RunEnv :=
  { parse := parseConst
    now := 0
    days := 0
    listerResponse := some [{ id := some "rB", createdOn := some "t" },
                            { id := some "rG", createdOn := some "t" }]
    detailStep := fun rid =>
      if rid = "rB" then .error "TypeError" else .ok (some [fixReportSample])
    issuesStep := fun _ => .ok (some [issueRelevant])
    appendOk := fun _ => true }

lemma collectTagValues_eq_filterMap (tags : List Tag) :
    collectTagValues tags =
      tags.filterMap fun t =>
        match t.value with
        | some s => if s = "" then none else some s
        | none => none := by
  induction tags with
  | nil => rfl
  | cons tag rest ih =>
    cases hv : tag.value with
    | none => simp [collectTagValues, List.filterMap_cons, hv, ih]
    | some s =>
      by_cases hs : s = "" <;>
        simp [collectTagValues, List.filterMap_cons, hv, hs, ih]

lemma collectTagValues_isEmpty_iff (tags : List Tag) :
    (collectTagValues tags).isEmpty = true ↔ ∀ t ∈ tags, truthy t.value = false := by
  induction tags with
  | nil => simp [collectTagValues]
  | cons tag rest ih =>
    cases hv : tag.value with
    | none => simp [collectTagValues, hv, ih, truthy]
    | some s =>
      by_cases hs : s = "" <;>
        simp [collectTagValues, hv, hs, ih, truthy]

lemma collectTagValues_isEmpty_eq_not_relevant (issue : Issue) :
    (collectTagValues issue.vulnerabilityReportIssueTags).isEmpty = !(relevantIssue issue) := by
  rcases h : relevantIssue issue with _ | _
  · rw [relevantIssue, List.any_eq_false] at h
    simp only [Bool.not_false]
    exact (collectTagValues_isEmpty_iff _).mpr (by
      intro t ht
      have := h t ht
      simpa using this)
  · rw [relevantIssue, List.any_eq_true] at h
    obtain ⟨t, ht, htr⟩ := h
    simp only [Bool.not_true]
    cases hE : (collectTagValues issue.vulnerabilityReportIssueTags).isEmpty with
    | false => rfl
    | true =>
      rw [collectTagValues_isEmpty_iff] at hE
      have := hE t ht
      rw [htr] at this
      exact absurd this (by simp)

/-- Characterization of the relevance filter as a `filter` followed by a
`map` over the kept issues. -/
lemma filter_irrelevant_eq (issues : List Issue) :
    filter_irrelevant_issues issues =
      (issues.filter relevantIssue).map setConcatenatedTags := by
  induction issues with
  | nil => rfl
  | cons issue rest ih =>
    rcases h : relevantIssue issue with _ | _
    · have hE : (collectTagValues issue.vulnerabilityReportIssueTags).isEmpty = true := by
        rw [collectTagValues_isEmpty_eq_not_relevant, h]; rfl
      by_cases ht : issue.vulnerabilityReportIssueTags.isEmpty
      · simp [filter_irrelevant_issues, ht, ih, List.filter_cons, h]
      · simp [filter_irrelevant_issues, ht, hE, ih, List.filter_cons, h]
    · have hE : (collectTagValues issue.vulnerabilityReportIssueTags).isEmpty = false := by
        rw [collectTagValues_isEmpty_eq_not_relevant, h]; rfl
      have ht : issue.vulnerabilityReportIssueTags.isEmpty = false := by
        cases htags : issue.vulnerabilityReportIssueTags with
        | nil => rw [htags] at hE; exact absurd hE (by simp [collectTagValues])
        | cons a l => simp
      simp [filter_irrelevant_issues, ht, hE, ih, List.filter_cons, h, setConcatenatedTags]

/-- C1: `filter_irrelevant_issues` keeps an issue iff some entry of its
`vulnerabilityReportIssueTags` has a truthy (present, non-empty) value; each
kept issue carries `concatenated_tags` equal to its non-empty tag values, in
original order, joined by `" | "`; kept issues stay in input order. -/
theorem filter_irrelevant_issues_spec (issues : List Issue) :
    filter_irrelevant_issues issues =
      (issues.filter fun issue =>
          decide (∃ t ∈ issue.vulnerabilityReportIssueTags, truthy t.value = true)).map
        fun issue =>
          { issue with
              concatenated_tags := some (String.intercalate " | "
                (issue.vulnerabilityReportIssueTags.filterMap fun t =>
                  match t.value with
                  | some s => if s = "" then none else some s
                  | none => none)) } := by
  rw [filter_irrelevant_eq]
  have hp : relevantIssue = fun issue : Issue =>
      decide (∃ t ∈ issue.vulnerabilityReportIssueTags, truthy t.value = true) := by
    funext i
    rcases h : relevantIssue i with _ | _
    · rw [relevantIssue, List.any_eq_false] at h
      symm
      rw [decide_eq_false_iff_not]
      rintro ⟨t, ht, htr⟩
      exact absurd htr (by simpa using h t ht)
    · rw [relevantIssue, List.any_eq_true] at h
      symm
      rw [decide_eq_true_eq]
      exact h
  have hf : setConcatenatedTags = fun issue : Issue =>
      { issue with
          concatenated_tags := some (String.intercalate " | "
            (issue.vulnerabilityReportIssueTags.filterMap fun t =>
              match t.value with
              | some s => if s = "" then none else some s
              | none => none)) } := by
    funext i
    rw [setConcatenatedTags, collectTagValues_eq_filterMap]
  rw [hp, hf]

/-- C8: applying `filter_irrelevant_issues` to its own output returns that
output unchanged — same issues, same `concatenated_tags`. -/
theorem filter_irrelevant_issues_idempotent (issues : List Issue) :
    filter_irrelevant_issues (filter_irrelevant_issues issues) =
      filter_irrelevant_issues issues := by
  rw [filter_irrelevant_eq (filter_irrelevant_issues issues), filter_irrelevant_eq issues]
  have hset : setConcatenatedTags ∘ setConcatenatedTags = setConcatenatedTags := by
    funext i; rfl
  have hcomp : relevantIssue ∘ setConcatenatedTags = relevantIssue := by
    funext i; rfl
  rw [List.filter_map, hcomp, List.filter_filter, List.map_map, hset]
  simp [Bool.and_self]

/-- C9: every issue returned by `filter_irrelevant_issues` is an input issue
with `concatenated_tags` set to its joined tag values and every other field
(`vendorInstanceId`, `fpDescription`, the tag list, and all untouched extra
keys) unchanged. -/
theorem filter_irrelevant_issues_frame (issues : List Issue) (j : Issue)
    (hj : j ∈ filter_irrelevant_issues issues) :
    ∃ i ∈ issues, relevantIssue i = true ∧
      j.vendorInstanceId = i.vendorInstanceId ∧
      j.fpDescription = i.fpDescription ∧
      j.vulnerabilityReportIssueTags = i.vulnerabilityReportIssueTags ∧
      j.extra = i.extra ∧
      j.concatenated_tags = some (String.intercalate " | "
        (collectTagValues i.vulnerabilityReportIssueTags)) := by
  rw [filter_irrelevant_eq] at hj
  obtain ⟨i, hi, rfl⟩ := List.mem_map.mp hj
  rw [List.mem_filter] at hi
  exact ⟨i, hi.1, hi.2, rfl, rfl, rfl, rfl, rfl⟩

/-- Witness for C9 at a concrete input: the filter output on
`[issueRelevant, issueNoValue]` contains `setConcatenatedTags issueRelevant`
whose fields trace back to `issueRelevant`. -/
theorem filter_irrelevant_issues_frame_witness :
    ∃ i ∈ [issueRelevant, issueNoValue], relevantIssue i = true ∧
      (setConcatenatedTags issueRelevant).vendorInstanceId = i.vendorInstanceId ∧
      (setConcatenatedTags issueRelevant).fpDescription = i.fpDescription ∧
      (setConcatenatedTags issueRelevant).vulnerabilityReportIssueTags =
        i.vulnerabilityReportIssueTags ∧
      (setConcatenatedTags issueRelevant).extra = i.extra ∧
      (setConcatenatedTags issueRelevant).concatenated_tags =
        some (String.intercalate " | " (collectTagValues i.vulnerabilityReportIssueTags)) :=
  filter_irrelevant_issues_frame [issueRelevant, issueNoValue]
    (setConcatenatedTags issueRelevant) (by decide)

lemma activeReportsLoop_eq_filter (parse : String → Option Int) (cutoff : Int)
    (l : List ReportEntry) :
    activeReportsLoop parse cutoff l =
      (l.filter (keepReport parse cutoff)).filterMap (fun r => r.id) := by
  induction l with
  | nil => rfl
  | cons r rest ih =>
    rcases hid : r.id with _ | rid <;> rcases hc : r.createdOn with _ | c
    · simp [activeReportsLoop, keepReport, List.filter_cons, hid, hc, ih]
    · simp [activeReportsLoop, keepReport, List.filter_cons, hid, hc, ih]
    · simp [activeReportsLoop, keepReport, List.filter_cons, hid, hc, ih]
    · by_cases hemp : rid = "" ∨ c = ""
      · simp [activeReportsLoop, keepReport, List.filter_cons, hid, hc, hemp, ih]
      · rcases hp : parse (replaceZ c) with _ | created
        · simp [activeReportsLoop, keepReport, List.filter_cons, hid, hc, hemp, hp, ih]
        · by_cases hcut : cutoff ≤ created
          · simp [activeReportsLoop, keepReport, List.filter_cons, hid, hc, hemp, hp,
              hcut, ih, List.filterMap_cons]
          · simp [activeReportsLoop, keepReport, List.filter_cons, hid, hc, hemp, hp,
              hcut, ih]

/-- C2 counterexample: a listing entry whose id is the empty string (falsy
in Python) but whose timestamp parses and is at or after the cutoff.  The
claim prescribes its id in the output; `get_active_reports` drops it. -/
theorem get_active_reports_claim_counterexample :
    get_active_reports parseConst 0 0 (some [reportEmptyId]) = [] ∧
    specListerIds parseConst (0 - 0 * secondsPerDay) (some [reportEmptyId]) = [""] ∧
    get_active_reports parseConst 0 0 (some [reportEmptyId]) ≠
      specListerIds parseConst (0 - 0 * secondsPerDay) (some [reportEmptyId]) := by
  decide

/-- C2 (amended): `get_active_reports` returns exactly the ids of the
reports with a truthy (present, non-empty) id whose `createdOn` is present,
parses, and is at or after the cutoff; the cutoff is `now` minus the
configured window, computed once per call, and the included ids keep the
response order.  Unparseable or missing timestamps never raise. -/
theorem get_active_reports_amended (parse : String → Option Int) (now days : Int)
    (response : Option (List ReportEntry)) :
    get_active_reports parse now days response =
      ((response.getD []).filter
          (keepReport parse (now - days * secondsPerDay))).filterMap
        (fun r => r.id) := by
  cases response with
  | none => rfl
  | some l =>
    simpa [get_active_reports] using
      activeReportsLoop_eq_filter parse (now - days * secondsPerDay) l

/-- On a first payload entry without an explicitly-null
`vulnerabilityReport` the raw model agrees with the pipeline model
`get_fix_report_details` under `rawToFull`: the pipeline model is exactly
the no-raise restriction of the source. -/
lemma get_fix_report_details_raw_agrees (rid : String) (fr : FixReportRaw)
    (rest : List FixReportRaw) (h : fr.vulnerabilityReport ≠ JsonField.null) :
    get_fix_report_details_raw rid (some (fr :: rest)) =
      .ok (get_fix_report_details rid
            (some (rawToFull fr :: rest.map rawToFull))) := by
  rcases fr with ⟨vr, rp⟩
  cases vr with
  | null => exact absurd rfl h
  | absent => cases rp with | none => rfl | some r => rfl
  | val v =>
    rcases v with ⟨pj⟩
    cases pj <;> cases rp <;> rfl

/-- C5 counterexample: on a non-empty detail payload whose first entry has
`"vulnerabilityReport": null` the source does not return a record with a
null project name — the `.get` default `{}` does not apply to a
present-but-null key, nothing guards `vulnerability_report` itself, and
line 168 raises `AttributeError`. -/
theorem get_fix_report_details_null_counterexample :
    get_fix_report_details_raw "r1" (some [rawNullVR]) =
      .error "AttributeError: NoneType has no attribute get" ∧
    (get_fix_report_details_raw "r1" (some [rawNullVR])).isOk = false :=
  ⟨rfl, rfl⟩

/-- C5 (amended): `get_fix_report_details` returns null on fetch failure and
on an empty detail payload; any absent field on the path to the project or
repository name — and a present-but-null `project` or `repo`, both guarded —
yields a record whose corresponding name is null rather than an error; but
when the `vulnerabilityReport` field is present and explicitly `null`, the
unguarded attribute access raises an `AttributeError` instead of returning
(the caller's per-report handler catches it). -/
theorem get_fix_report_details_amended :
    (∀ rid : String, get_fix_report_details_raw rid none = .ok none) ∧
    (∀ rid : String, get_fix_report_details_raw rid (some []) = .ok none) ∧
    (∀ (rid : String) (fr : FixReportRaw) (rest : List FixReportRaw),
      fr.vulnerabilityReport ≠ JsonField.null →
      get_fix_report_details_raw rid (some (fr :: rest)) =
        .ok (some { project_name :=
                      (fr.vulnerabilityReport.toOption.bind
                        (fun vr => vr.project)).bind (fun p => p.name)
                    repo_name := fr.repo.bind (fun rp => rp.name)
                    fix_report_id := rid })) ∧
    (∀ (rid : String) (fr : FixReportRaw) (rest : List FixReportRaw),
      fr.vulnerabilityReport = JsonField.null →
      (get_fix_report_details_raw rid (some (fr :: rest))).isOk = false) := by
  refine ⟨fun rid => rfl, fun rid => rfl, ?_, ?_⟩
  · intro rid fr rest h
    rcases fr with ⟨vr, rp⟩
    cases vr with
    | null => exact absurd rfl h
    | absent => cases rp with | none => rfl | some r => rfl
    | val v =>
      rcases v with ⟨pj⟩
      cases pj <;> cases rp <;> rfl
  · intro rid fr rest h
    rcases fr with ⟨vr, rp⟩
    cases vr with
    | null => rfl
    | absent => simp at h
    | val v => simp at h

/-- Witness for C5 (amended) at concrete payloads: the absent-key entry
returns a record with a null project name; the explicitly-null entry is
rejected with an error. -/
theorem get_fix_report_details_amended_witness :
    (get_fix_report_details_raw "r1" (some [rawAbsentVR]) =
      .ok (some { project_name :=
                    (rawAbsentVR.vulnerabilityReport.toOption.bind
                      (fun vr => vr.project)).bind (fun p => p.name)
                  repo_name := rawAbsentVR.repo.bind (fun rp => rp.name)
                  fix_report_id := "r1" })) ∧
    (get_fix_report_details_raw "r1" (some [rawNullVR])).isOk = false :=
  ⟨get_fix_report_details_amended.2.2.1 "r1" rawAbsentVR [] (by decide),
   get_fix_report_details_amended.2.2.2 "r1" rawNullVR [] rfl⟩

/-- C4 counterexample: for an issue with absent `vendorInstanceId` the
export row holds the literal string `"null"` — which has four characters,
not three as the claim states. -/
theorem issueRow_null_sentinel_counterexample :
    (issueRow detailsSample issueRelevant).vendorInstanceId = "null" ∧
    ((issueRow detailsSample issueRelevant).vendorInstanceId).length ≠ 3 ∧
    ((issueRow detailsSample issueRelevant).vendorInstanceId).length = 4 := by
  decide

/-- C4 (amended): for every exported issue whose `vendorInstanceId` is
absent or null, the row's `vendorInstanceId` is the literal four-character
string `"null"`, never an empty field; a present non-null value is written
verbatim. -/
theorem issueRow_vendorInstanceId_amended (d : ReportDetails) (i : Issue) :
    (i.vendorInstanceId = none →
      (issueRow d i).vendorInstanceId = "null" ∧
      ((issueRow d i).vendorInstanceId).length = 4 ∧
      (issueRow d i).vendorInstanceId ≠ "") ∧
    (∀ v, i.vendorInstanceId = some v → (issueRow d i).vendorInstanceId = v) := by
  constructor
  · intro h
    refine ⟨by simp [issueRow, h], ?_, by simp [issueRow, h]⟩
    rw [show (issueRow d i).vendorInstanceId = "null" from by simp [issueRow, h]]
    decide
  · intro v h
    simp [issueRow, h]

/-- Witness for C4 (amended) at concrete issues: `issueRelevant` has no
`vendorInstanceId` and renders as `"null"`; `issueNoValue` carries
`"vid-1"` and renders verbatim. -/
theorem issueRow_vendorInstanceId_amended_witness :
    ((issueRow detailsSample issueRelevant).vendorInstanceId = "null" ∧
      ((issueRow detailsSample issueRelevant).vendorInstanceId).length = 4 ∧
      (issueRow detailsSample issueRelevant).vendorInstanceId ≠ "") ∧
    (issueRow detailsSample issueNoValue).vendorInstanceId = "vid-1" :=
  ⟨(issueRow_vendorInstanceId_amended detailsSample issueRelevant).1 rfl,
   (issueRow_vendorInstanceId_amended detailsSample issueNoValue).2 "vid-1" rfl⟩

/-- C6 counterexample: construction accepts a negative lookback window
(`daysOfData = -5`) and an absent one (defaulting to 7) — it never rejects
them; only `test_config.py`, a separate opt-in pre-flight script, validates
the window. -/
theorem initExtractor_window_counterexample :
    extractedDays (initExtractor "config.json" (.parsed cfgNegDays)) = some (-5) ∧
    extractedDays (initExtractor "config.json" (.parsed cfgNoDays)) = some 7 := by
  decide

/-- C6 (amended): construction (which makes no network call in this model —
`__init__` only loads config, derives fields, and performs local I/O)
rejects a missing, empty, or placeholder API credential with a fatal
configuration error, and likewise rejects a missing or undecodable config
file; it does not validate the lookback window: an absent `daysOfData`
defaults to 7 and any present value, including non-positive ones, is
accepted as-is. -/
theorem initExtractor_amended (path : String) (c : Config) :
    ((initExtractor path (.parsed c)).isOk = !(tokenBad c)) ∧
    (extractedDays (initExtractor path (.parsed c)) =
      if tokenBad c then none else some (c.daysOfData.getD 7)) ∧
    (initExtractor path ConfigSource.missing).isOk = false ∧
    (initExtractor path ConfigSource.invalidJson).isOk = false := by
  refine ⟨?_, ?_, rfl, rfl⟩ <;>
  · by_cases h : c.mobb_api_token = none ∨ c.mobb_api_token = some "" ∨
        c.mobb_api_token = some "YOUR_MOBB_API_TOKEN_HERE" <;>
      simp [initExtractor, _load_config, extractedDays, tokenBad, h, Except.isOk,
        Except.toBool]

lemma exportIssues_total (appendOk : Nat → Bool) (d : ReportDetails) :
    ∀ (issues : List Issue) (st : RunState),
      (exportIssues appendOk d issues st).total = st.total + issues.length
  | [], st => by simp [exportIssues]
  | issue :: rest, st => by
    rw [exportIssues, exportIssues_total appendOk d rest]
    simp only [List.length_cons]
    omega

lemma exportIssues_file_allOk (appendOk : Nat → Bool)
    (happend : ∀ n, appendOk n = true) (d : ReportDetails) :
    ∀ (issues : List Issue) (st : RunState),
      (exportIssues appendOk d issues st).file =
        st.file ++ issues.map (issueRow d)
  | [], st => by simp [exportIssues]
  | issue :: rest, st => by
    rw [exportIssues, exportIssues_file_allOk appendOk happend d rest]
    simp [_append_to_csv, happend st.attempts, List.append_assoc]

lemma processReports_append (env : RunEnv) (l₁ l₂ : List String) (st : RunState) :
    processReports env (l₁ ++ l₂) st =
      processReports env l₂ (processReports env l₁ st) := by
  induction l₁ generalizing st with
  | nil => simp [processReports]
  | cons rid rest ih =>
    rw [List.cons_append, processReports, processReports]
    exact ih _

lemma foldl_add_map (f : String → Nat) (l : List String) (n : Nat) :
    List.foldl (fun acc x => acc + f x) n l = n + (l.map f).sum := by
  induction l generalizing n with
  | nil => simp
  | cons a rest ih =>
    rw [List.foldl_cons, ih, List.map_cons, List.sum_cons]
    omega

lemma processReports_rowcount (env : RunEnv)
    (happend : ∀ n, env.appendOk n = true) :
    ∀ (ids : List String) (st : RunState),
      (∀ rid ∈ ids, ∃ payload, env.detailStep rid = .ok payload ∧
        (get_fix_report_details rid payload).isSome = true) →
      (∀ rid ∈ ids, ∃ resp, env.issuesStep rid = .ok resp) →
      (processReports env ids st).total =
          st.total + (ids.map (fun rid =>
            (filter_irrelevant_issues (envIssuesOf env rid)).length)).sum ∧
        (processReports env ids st).file.length =
          st.file.length + (ids.map (fun rid =>
            (filter_irrelevant_issues (envIssuesOf env rid)).length)).sum := by
  intro ids
  induction ids with
  | nil => intro st _ _; simp [processReports]
  | cons rid rest ih =>
    intro st hdetail hissues
    obtain ⟨payload, hpay, hsome⟩ := hdetail rid (List.mem_cons_self rid rest)
    obtain ⟨details, hdet⟩ := Option.isSome_iff_exists.mp hsome
    obtain ⟨resp, hresp⟩ := hissues rid (List.mem_cons_self rid rest)
    have henv : envIssuesOf env rid = get_issues_for_fix_report resp := by
      rw [envIssuesOf, hresp]
    have hone : processOneReport env rid =
        (if (get_issues_for_fix_report resp).isEmpty then .ok none
         else .ok (some (details,
           filter_irrelevant_issues (get_issues_for_fix_report resp)))) := by
      simp only [processOneReport, hpay, hdet, hresp]
    have hrest₁ : ∀ r ∈ rest, ∃ payload, env.detailStep r = .ok payload ∧
        (get_fix_report_details r payload).isSome = true :=
      fun r hr => hdetail r (List.mem_cons_of_mem rid hr)
    have hrest₂ : ∀ r ∈ rest, ∃ resp, env.issuesStep r = .ok resp :=
      fun r hr => hissues r (List.mem_cons_of_mem rid hr)
    rw [processReports, hone]
    by_cases hemp : (get_issues_for_fix_report resp).isEmpty
    · have hnil : get_issues_for_fix_report resp = [] := by
        rwa [List.isEmpty_iff] at hemp
      obtain ⟨h₁, h₂⟩ := ih st hrest₁ hrest₂
      rw [if_pos hemp]
      constructor
      · rw [h₁]
        simp [henv, hnil, filter_irrelevant_issues]
      · rw [h₂]
        simp [henv, hnil, filter_irrelevant_issues]
    · set st' := exportIssues env.appendOk details
        (filter_irrelevant_issues (get_issues_for_fix_report resp)) st with hst'
      obtain ⟨h₁, h₂⟩ := ih st' hrest₁ hrest₂
      rw [if_neg hemp]
      constructor
      · rw [h₁, hst', exportIssues_total]
        simp only [List.map_cons, List.sum_cons, henv]
        omega
      · rw [h₂, hst', exportIssues_file_allOk env.appendOk happend]
        simp only [List.map_cons, List.sum_cons, henv, List.length_append,
          List.length_map]
        omega

lemma process_all_reports_eq (env : RunEnv) :
    process_all_reports env =
      (processReports env (get_active_reports env.parse env.now env.days
          env.listerResponse) initialRunState,
        (processReports env (get_active_reports env.parse env.now env.days
          env.listerResponse) initialRunState).total) := by
  rw [process_all_reports]
  by_cases hids : (get_active_reports env.parse env.now env.days
      env.listerResponse).isEmpty
  · have hnil : get_active_reports env.parse env.now env.days
        env.listerResponse = [] := by
      rwa [List.isEmpty_iff] at hids
    rw [if_pos hids, hnil]
    rfl
  · rw [if_neg hids]

/-- C3 counterexample: the lister returns report `"r1"`, whose issue list
holds one relevant issue, but its detail fetch fails, so the run skips it:
zero rows are appended and `process_all_reports` returns 0 while the
claim's sum over all listed report ids is 1. -/
theorem process_all_reports_claim_counterexample :
    (process_all_reports envDetailFail).2 = 0 ∧
    (process_all_reports envDetailFail).1.file.length = 0 ∧
    specClaimedRowTotal envDetailFail = 1 := by
  decide

/-- C3 (amended): after a full run in which every listed report's detail
fetch returns a usable record, every issue fetch raises no exception, and
every CSV append succeeds, the number of data rows appended to the output
file equals the number of issues satisfying the relevance predicate summed
over all report ids returned by the lister, and that is the value
`process_all_reports` returns. -/
theorem process_all_reports_rowcount_amended (env : RunEnv)
    (hdetail : ∀ rid ∈ get_active_reports env.parse env.now env.days
        env.listerResponse,
      ∃ payload, env.detailStep rid = .ok payload ∧
        (get_fix_report_details rid payload).isSome = true)
    (hissues : ∀ rid ∈ get_active_reports env.parse env.now env.days
        env.listerResponse,
      ∃ resp, env.issuesStep rid = .ok resp)
    (happend : ∀ n, env.appendOk n = true) :
    (process_all_reports env).2 = specClaimedRowTotal env ∧
    (process_all_reports env).1.file.length = (process_all_reports env).2 := by
  obtain ⟨h₁, h₂⟩ := processReports_rowcount env happend
    (get_active_reports env.parse env.now env.days env.listerResponse)
    initialRunState hdetail hissues
  rw [process_all_reports_eq]
  constructor
  · show (processReports env (get_active_reports env.parse env.now env.days
        env.listerResponse) initialRunState).total = specClaimedRowTotal env
    rw [h₁, specClaimedRowTotal, foldl_add_map]
    rfl
  · show (processReports env (get_active_reports env.parse env.now env.days
        env.listerResponse) initialRunState).file.length =
      (processReports env (get_active_reports env.parse env.now env.days
        env.listerResponse) initialRunState).total
    rw [h₁, h₂]
    rfl

/-- Witness for C3 (amended): the healthy run `envGood` (one listed report,
one relevant issue of two, all fetches and writes succeeding) returns the
claimed sum, which equals its file's row count. -/
theorem process_all_reports_rowcount_amended_witness :
    (process_all_reports envGood).2 = specClaimedRowTotal envGood ∧
    (process_all_reports envGood).1.file.length = (process_all_reports envGood).2 :=
  process_all_reports_rowcount_amended envGood
    (fun _ _ => ⟨some [fixReportSample], rfl, rfl⟩)
    (fun _ _ => ⟨some [issueRelevant, issueNoValue], rfl⟩)
    (fun _ => rfl)

/-- C7: an exception raised while handling one report id is caught: that
report leaves the run state unchanged (zero rows, zero count) and the loop
continues with the remaining report ids exactly as if the failed id were
absent. -/
theorem processReports_error_isolated (env : RunEnv) (st : RunState)
    (ids₁ ids₂ : List String) (bad : String) (e : String)
    (hbad : processOneReport env bad = .error e) :
    processReports env (ids₁ ++ bad :: ids₂) st =
      processReports env ids₂ (processReports env ids₁ st) := by
  rw [processReports_append, processReports, hbad]

/-- Witness for C7: in `envErr`, report `"rB"` raises a `TypeError` and is
skipped while `"rG"` is still processed. -/
theorem processReports_error_isolated_witness :
    processReports envErr ["rB", "rG"] initialRunState =
      processReports envErr ["rG"] (processReports envErr [] initialRunState) :=
  processReports_error_isolated envErr initialRunState [] ["rG"] "rB"
    "TypeError" rfl

/-- C10: the returned counter increments once per relevant issue regardless
of whether its CSV append succeeded (`_append_to_csv` swallows write
failures), so in the run `envNoWrites`, whose every append fails, the
returned total is 1 while the file holds 0 data rows. -/
theorem process_all_reports_count_ignores_write_failures :
    (∀ (appendOk : Nat → Bool) (d : ReportDetails) (issues : List Issue)
        (st : RunState),
      (exportIssues appendOk d issues st).total = st.total + issues.length) ∧
    (process_all_reports envNoWrites).2 = 1 ∧
    (process_all_reports envNoWrites).1.file.length = 0 := by
  refine ⟨fun appendOk d issues st => exportIssues_total appendOk d issues st, ?_, ?_⟩ <;>
    decide

end MobbFP
